import Mathlib

/-!
Shallow embedding of `src/lua/commit.py` (a git staged-diff report generator)
together with theorems settling the specification claims about it.

External effects (the git subprocess calls, the filesystem probes and the
glob matcher of `pathlib.Path.match`) are abstracted into an environment
record `GitEnv` and an abstract matcher argument; all control flow, string
building and line bookkeeping of the Python source is embedded directly.
-/

namespace AICommit

/-- Embedding of Python's `str.startswith`: the prefix's characters are a
prefix of the string's characters. -/
def startswith (s pre : String) : Bool :=
  pre.data.isPrefixOf s.data

/-- Embedding of Python's `c in s` membership test of a character in a
string. -/
def py_char_in (c : Char) (s : String) : Bool :=
  s.data.contains c

/-- Embedding of Python's `s[0]` on a string: the one-character string
holding the first character (the source only evaluates it on non-empty
strings, where `startswith` guarantees a first character exists). -/
def py_first (s : String) : String :=
  String.mk (s.data.take 1)

/-- Environment abstracting the subprocess and filesystem boundary of
`commit.py`: repository root lookup (`get_repo_root`), the staged change
list (`get_staged_changes`), existence / directory / binary probes
(`Path.exists`, `Path.is_dir`, `is_binary_file`), whether the per-file
`git diff` call succeeds, its output lines (as a function of the path and
the context-line count), the formatted stats string (`get_file_stats`),
and the lower-cased path suffix (`Path(filepath).suffix.lower()`). -/
structure GitEnv where
  repoRoot : Option String
  stagedChanges : List (String × String)
  pathExists : String → Bool
  isDir : String → Bool
  isBinaryFile : String → Bool
  diffCallOk : String → Bool
  fileDiff : String → Int → List String
  fileStats : String → String
  suffixLower : String → String

/-- A diff metadata line: starts with `@@`, `+++` or `---`
(commit.py line 91). -/
def diff_marker (line : String) : Bool :=
  startswith line "@@" || startswith line "+++" || startswith line "---"

/-- The header/content scan of `get_file_diff` (commit.py lines 87-100):
sequentially classify each line, keeping at most 10 header lines; the
first 10 lines overall always go to the header; a marker line found once
the header is full dumps the whole remaining suffix into the content and
stops the scan. -/
def scanLoop : List String → Nat → List String → List String → List String × List String
  | [], _, header_lines, content_lines => (header_lines, content_lines)
  | line :: rest, i, header_lines, content_lines =>
    if diff_marker line then
      if header_lines.length < 10 then
        scanLoop rest (i + 1) (header_lines ++ [line]) content_lines
      else
        (header_lines, content_lines ++ (line :: rest))
    else if i < 10 then
      scanLoop rest (i + 1) (header_lines ++ [line]) content_lines
    else
      scanLoop rest (i + 1) header_lines (content_lines ++ [line])

/-- The truncation marker line appended by `get_file_diff`
(commit.py line 108). -/
def truncation_notice (max_lines_per_file : Int) : String :=
  "... (diff truncated at " ++ toString max_lines_per_file ++ " lines)"

/-- The pure truncation step of `get_file_diff` (commit.py lines 83-108),
applied to the diff lines returned by the git call. Note the guard
`if remaining_lines > 0` (line 104): for a non-positive remaining budget
the content lines are left whole, not emptied. -/
def get_file_diff_trunc (diff_lines : List String) (max_lines_per_file : Int) : List String :=
  if (diff_lines.length : Int) > max_lines_per_file then
    let hc := scanLoop diff_lines 0 [] []
    let remaining_lines : Int := max_lines_per_file - hc.1.length - 1
    let content_lines := if remaining_lines > 0 then hc.2.take remaining_lines.toNat else hc.2
    hc.1 ++ content_lines ++ [truncation_notice max_lines_per_file]
  else
    diff_lines

/-- `get_file_diff` (commit.py lines 74-112): fetch the staged diff for a
path with the configured context, truncate it; a failed git call yields an
empty list. -/
def get_file_diff (env : GitEnv) (filepath : String) (max_lines_per_file context_lines : Int) :
    List String :=
  if env.diffCallOk filepath then
    get_file_diff_trunc (env.fileDiff filepath context_lines) max_lines_per_file
  else
    []

/-- Embedding of the literal dict `status_map` together with
`status_map.get(key, default)` (commit.py lines 137-145). -/
def status_map_get (key dflt : String) : String :=
  if key = "A" then "Added"
  else if key = "M" then "Modified"
  else if key = "D" then "Deleted"
  else if key = "R" then "Renamed"
  else if key = "C" then "Copied"
  else if key = "T" then "Type changed"
  else if key = "U" then "Unmerged"
  else dflt

/-- `format_status` (commit.py lines 135-152): statuses starting with `R`
or `C` are looked up by their first character; anything else is looked up
verbatim with itself as the default. -/
def format_status (status : String) : String :=
  if startswith status "R" || startswith status "C" then
    status_map_get (py_first status) (py_first status)
  else
    status_map_get status status

/-- `should_include_file` (commit.py lines 155-168), parameterised by the
glob matcher `matc` abstracting `pathlib.Path.match`: exclude patterns are
checked first and win; with a non-empty include list the path must match
one include pattern; otherwise it is included. -/
def should_include_file (matc : String → String → Bool) (filepath : String)
    (include_patterns exclude_patterns : List String) : Bool :=
  if exclude_patterns.any (fun pattern => matc filepath pattern) then false
  else if !include_patterns.isEmpty then
    include_patterns.any (fun pattern => matc filepath pattern)
  else true

/-- The default exclude pattern list of `get_staged_diff`
(commit.py line 183). -/
def default_exclude_patterns : List String :=
  ["*.pyc", "*.pyo", "__pycache__/*", ".git/*", "*.so", "*.dylib", "*.dll"]

/-- The text-file branch of the per-file loop (commit.py lines 250-262):
stats, header line (note the leading newline is part of the measured
string), separator rule of length `min(len(file_header), 80)`, then the
truncated diff or `"No diff available."`, then a blank separator line. -/
def textFileBlock (env : GitEnv) (include_stats : Bool) (max_lines context_lines : Int)
    (absolute_path status : String) : List String :=
  let stats := if include_stats then env.fileStats absolute_path else ""
  let file_header := "\n" ++ absolute_path ++ " (" ++ format_status status ++ ") " ++ stats
  let sep := String.mk (List.replicate (min file_header.length 80) '-')
  let diff_lines := get_file_diff env absolute_path max_lines context_lines
  [file_header, sep] ++ (if diff_lines.isEmpty then ["No diff available."] else diff_lines) ++ [""]

/-- The body of one iteration of the per-file loop of `get_staged_diff`
(commit.py lines 228-262), for a change that survived deduplication:
missing-file check (skipped when the status contains `D`), directory
check, binary check, then the text-file block. -/
def perFileBlock (env : GitEnv) (include_stats : Bool) (max_lines context_lines : Int)
    (repo_root status filepath : String) : List String :=
  let absolute_path := repo_root ++ "/" ++ filepath
  if !env.pathExists absolute_path && !py_char_in 'D' status then
    ["\nFile not found: " ++ filepath ++ " (" ++ format_status status ++ ")"]
  else if env.pathExists absolute_path && env.isDir absolute_path then
    ["\nDirectory " ++ format_status status ++ ": " ++ filepath]
  else if env.pathExists absolute_path && env.isBinaryFile absolute_path then
    ["\nBinary file " ++ format_status status ++ ": " ++ filepath ++ " " ++
      (if include_stats then env.fileStats filepath else "")]
  else
    textFileBlock env include_stats max_lines context_lines (repo_root ++ "/" ++ filepath) status

/-- The per-file loop of `get_staged_diff` (commit.py lines 221-262),
with `processed` playing the role of the `processed_files` set: an
already-seen path is skipped entirely, otherwise its block is emitted and
the path recorded. -/
def processLoop (env : GitEnv) (include_stats : Bool) (max_lines context_lines : Int)
    (repo_root : String) : List (String × String) → List String → List String
  | [], _ => []
  | (status, filepath) :: rest, processed =>
    if filepath ∈ processed then
      processLoop env include_stats max_lines context_lines repo_root rest processed
    else
      perFileBlock env include_stats max_lines context_lines repo_root status filepath ++
        processLoop env include_stats max_lines context_lines repo_root rest
          (filepath :: processed)

/-- The extension bucket key of the group-by-type summary
(commit.py line 211): lower-cased suffix, or `no_extension` when empty. -/
def ext_of (env : GitEnv) (filepath : String) : String :=
  let s := env.suffixLower filepath
  if s.isEmpty then "no_extension" else s

/-- The sorted distinct extension keys of the `File types:` summary line
(commit.py lines 208-216). -/
def file_type_keys (env : GitEnv) (changes : List (String × String)) : List String :=
  ((changes.map (fun c => ext_of env c.2)).eraseDups).mergeSort (fun a b => decide (a ≤ b))

/-- `get_staged_diff` (commit.py lines 171-264). Python's
`include_patterns or []` and `exclude_patterns or [...defaults...]` are
embedded exactly: a `None` or empty include list becomes `[]`, a `None`
or empty exclude list becomes the defaults. -/
def get_staged_diff (env : GitEnv) (matc : String → String → Bool)
    (max_lines_per_file context_lines : Int) (include_stats : Bool)
    (include_patterns exclude_patterns : Option (List String)) (group_by_type : Bool) : String :=
  let inc_pats := include_patterns.getD []
  let exc_pats := match exclude_patterns with
    | none => default_exclude_patterns
    | some [] => default_exclude_patterns
    | some (p :: ps) => p :: ps
  match env.repoRoot with
  | none => "Error: Not in a git repository."
  | some repo_root =>
    let output := ["=== Staged Changes Summary ==="]
    if env.stagedChanges.isEmpty then
      String.intercalate "\n" (output ++ ["No staged changes found."])
    else
      let filtered := env.stagedChanges.filter
        (fun c => should_include_file matc c.2 inc_pats exc_pats)
      if filtered.isEmpty then
        String.intercalate "\n" (output ++ ["No files match the specified patterns."])
      else
        let output := if group_by_type then
            output ++ ["\nFile types: " ++ String.intercalate ", " (file_type_keys env filtered)]
          else output
        let output := output ++
          ["\nTotal files: " ++ toString filtered.length,
           String.mk (List.replicate 50 '=')]
        String.intercalate "\n"
          (output ++
            processLoop env include_stats max_lines_per_file context_lines repo_root filtered [])

/-- First-occurrence deduplication by path, mirroring the effect of the
`processed_files` set of the per-file loop. -/
def dedupKeepFirst : List (String × String) → List String → List (String × String)
  | [], _ => []
  | c :: rest, seen =>
    if c.2 ∈ seen then dedupKeepFirst rest seen
    else c :: dedupKeepFirst rest (c.2 :: seen)

/-- A concrete environment whose every path exists as a text file, used to
evaluate the theorems on concrete inputs. -/
def unitEnv : GitEnv where
  repoRoot := some "repo"
  stagedChanges := [("M", "a.txt")]
  pathExists := fun _ => true
  isDir := fun _ => false
  isBinaryFile := fun _ => false
  diffCallOk := fun _ => false
  fileDiff := fun _ _ => []
  fileStats := fun _ => ""
  suffixLower := fun _ => ""

/-- A concrete environment outside any repository. -/
def noRepoEnv : GitEnv :=
  { unitEnv with repoRoot := none }

/-- A concrete environment whose diff call succeeds with a three-line
diff. -/
def diffEnv : GitEnv :=
  { unitEnv with
    diffCallOk := fun _ => true
    fileDiff := fun _ _ => ["diff --git a/x b/x", "--- a/x", "+++ b/x"] }

/-- A concrete environment in which no path exists on disk. -/
def missingEnv : GitEnv :=
  { unitEnv with pathExists := fun _ => false }

/-! ## Helper lemmas -/

/-- A string starting with a one-character prefix has that character in
front of its character data. -/
theorem data_of_startswith {s pre : String} {c : Char} (hp : pre.data = [c])
    (h : startswith s pre = true) : ∃ t, s.data = c :: t := by
  have h2 : List.isPrefixOf [c] s.data = true := by
    rw [startswith, hp] at h
    exact h
  rw [List.isPrefixOf_iff_prefix] at h2
  obtain ⟨t, ht⟩ := h2
  exact ⟨t, ht.symm⟩

/-- Python's `s[0]` of a string starting with a one-character prefix is
that prefix. -/
theorem py_first_of_startswith {s pre : String} {c : Char} (hp : pre.data = [c])
    (h : startswith s pre = true) : py_first s = pre := by
  obtain ⟨t, ht⟩ := data_of_startswith hp h
  refine String.ext ?_
  show s.data.take 1 = pre.data
  rw [ht, hp]
  simp

/-- `List.any` is invariant under permutation of the list. -/
theorem any_of_perm {α : Type} (f : α → Bool) {l l2 : List α} (h : l.Perm l2) :
    l.any f = l2.any f := by
  refine Bool.coe_iff_coe.mp ?_
  simp only [List.any_eq_true]
  constructor
  · rintro ⟨x, hx, hf⟩
    exact ⟨x, h.mem_iff.mp hx, hf⟩
  · rintro ⟨x, hx, hf⟩
    exact ⟨x, h.mem_iff.mpr hx, hf⟩

/-! ## Claim theorems -/

/-- C2: for every diff whose total line count is at most the budget
`max_lines_per_file`, `get_file_diff` returns the diff lines fetched from
git verbatim, in particular with no truncation marker appended. -/
theorem get_file_diff_verbatim (env : GitEnv) (filepath : String)
    (max_lines_per_file context_lines : Int)
    (hok : env.diffCallOk filepath = true)
    (hlen : ((env.fileDiff filepath context_lines).length : Int) ≤ max_lines_per_file) :
    get_file_diff env filepath max_lines_per_file context_lines =
      env.fileDiff filepath context_lines := by
  simp only [get_file_diff, hok, if_true]
  simp only [get_file_diff_trunc]
  rw [if_neg (by omega)]

/-- Witness for C2 at a concrete three-line diff and budget 5. -/
theorem get_file_diff_verbatim_w :
    get_file_diff diffEnv "x" 5 3 = diffEnv.fileDiff "x" 3 :=
  get_file_diff_verbatim diffEnv "x" 5 3 rfl (by decide)

/-- C4: when the repository-root lookup fails, `get_staged_diff` returns
exactly the error string, for every value of every other input, so no
further processing can influence the result. -/
theorem not_a_repo (env : GitEnv) (matc : String → String → Bool)
    (max_lines_per_file context_lines : Int) (include_stats : Bool)
    (include_patterns exclude_patterns : Option (List String)) (group_by_type : Bool)
    (h : env.repoRoot = none) :
    get_staged_diff env matc max_lines_per_file context_lines include_stats
      include_patterns exclude_patterns group_by_type =
      "Error: Not in a git repository." := by
  simp only [get_staged_diff, h]

/-- Witness for C4 at a concrete environment with no repository root. -/
theorem not_a_repo_w :
    get_staged_diff noRepoEnv (fun _ _ => true) 100 3 true none none false =
      "Error: Not in a git repository." :=
  not_a_repo noRepoEnv (fun _ _ => true) 100 3 true none none false rfl

/-- C5: a path matching at least one exclude pattern is always excluded by
`should_include_file`, whatever the include patterns, and the result of
the filter is invariant under permuting the exclude-pattern list. -/
theorem exclude_wins (matc : String → String → Bool) (filepath : String)
    (include_patterns exclude_patterns exclude_patterns2 : List String)
    (hm : ∃ pattern ∈ exclude_patterns, matc filepath pattern = true)
    (hp : exclude_patterns.Perm exclude_patterns2) :
    should_include_file matc filepath include_patterns exclude_patterns = false ∧
      should_include_file matc filepath include_patterns exclude_patterns2 =
        should_include_file matc filepath include_patterns exclude_patterns := by
  obtain ⟨pattern, hmem, hmat⟩ := hm
  have hany : exclude_patterns.any (fun pattern => matc filepath pattern) = true :=
    List.any_eq_true.mpr ⟨pattern, hmem, hmat⟩
  constructor
  · simp only [should_include_file, hany, if_true]
  · simp only [should_include_file,
      any_of_perm (fun pattern => matc filepath pattern) hp]

/-- Witness for C5: an excluded path that also matches an include pattern,
with a transposed exclude list. -/
theorem exclude_wins_w :
    should_include_file (fun fp pattern => fp == pattern) "a.pyc" ["a.pyc"]
        ["*.so", "a.pyc"] = false ∧
      should_include_file (fun fp pattern => fp == pattern) "a.pyc" ["a.pyc"]
          ["a.pyc", "*.so"] =
        should_include_file (fun fp pattern => fp == pattern) "a.pyc" ["a.pyc"]
          ["*.so", "a.pyc"] :=
  exclude_wins (fun fp pattern => fp == pattern) "a.pyc" ["a.pyc"]
    ["*.so", "a.pyc"] ["a.pyc", "*.so"]
    ⟨"a.pyc", by decide, by decide⟩ (List.Perm.swap "a.pyc" "*.so" [])

/-- C6: `format_status` is total: the seven status codes map to their
labels, every `R<digits>`/`C<digits>` variant maps to the label of its
first letter, and any other status (not among the seven and not starting
with `R` or `C`) is returned unchanged. -/
theorem format_status_total :
    (format_status "A" = "Added" ∧ format_status "M" = "Modified" ∧
      format_status "D" = "Deleted" ∧ format_status "R" = "Renamed" ∧
      format_status "C" = "Copied" ∧ format_status "T" = "Type changed" ∧
      format_status "U" = "Unmerged") ∧
    (∀ ds : List Char, ds.all Char.isDigit = true →
      format_status (String.mk ('R' :: ds)) = "Renamed" ∧
      format_status (String.mk ('C' :: ds)) = "Copied") ∧
    (∀ s : String, startswith s "R" = false → startswith s "C" = false →
      s ≠ "A" → s ≠ "M" → s ≠ "D" → s ≠ "R" → s ≠ "C" → s ≠ "T" → s ≠ "U" →
      format_status s = s) := by
  refine ⟨by decide, fun ds _ => ⟨?_, ?_⟩, fun s hR hC h1 h2 h3 h4 h5 h6 h7 => ?_⟩
  · have h : startswith (String.mk ('R' :: ds)) "R" = true := by
      show List.isPrefixOf ['R'] ('R' :: ds) = true
      simp [List.isPrefixOf]
    have hf : py_first (String.mk ('R' :: ds)) = "R" :=
      py_first_of_startswith rfl h
    unfold format_status
    rw [h, Bool.true_or, if_pos rfl, hf]
    decide
  · have h : startswith (String.mk ('C' :: ds)) "C" = true := by
      show List.isPrefixOf ['C'] ('C' :: ds) = true
      simp [List.isPrefixOf]
    have hf : py_first (String.mk ('C' :: ds)) = "C" :=
      py_first_of_startswith rfl h
    unfold format_status
    rw [h, Bool.or_true, if_pos rfl, hf]
    decide
  · unfold format_status
    rw [hR, hC, Bool.or_self, if_neg (by simp)]
    unfold status_map_get
    rw [if_neg h1, if_neg h2, if_neg h3, if_neg h4, if_neg h5, if_neg h6, if_neg h7]

/-- Witness for C6: `R100` and `C75` variants and the unknown code `X`. -/
theorem format_status_total_w :
    format_status (String.mk ['R', '1', '0', '0']) = "Renamed" ∧
      format_status "X" = "X" :=
  ⟨(format_status_total.2.1 ['1', '0', '0'] (by decide)).1,
    format_status_total.2.2 "X" (by decide) (by decide) (by decide) (by decide)
      (by decide) (by decide) (by decide) (by decide) (by decide)⟩

/-- C10: every status string beginning with `R` maps to `Renamed` and
every status string beginning with `C` maps to `Copied`, whatever follows
the first character; in particular the non-numeric suffix in `Rxyz` is
not validated and the code does not pass through verbatim. -/
theorem format_status_rc_first :
    (∀ s : String, startswith s "R" = true → format_status s = "Renamed") ∧
    (∀ s : String, startswith s "C" = true → format_status s = "Copied") ∧
    format_status "Rxyz" = "Renamed" := by
  refine ⟨fun s h => ?_, fun s h => ?_, by decide⟩
  · have hf : py_first s = "R" := py_first_of_startswith rfl h
    unfold format_status
    rw [h, Bool.true_or, if_pos rfl, hf]
    decide
  · have hf : py_first s = "C" := py_first_of_startswith rfl h
    unfold format_status
    rw [h, Bool.or_true, if_pos rfl, hf]
    decide

/-- Witness for C10: concrete statuses `R75` and `C20`. -/
theorem format_status_rc_first_w :
    format_status "R75" = "Renamed" ∧ format_status "C20" = "Copied" :=
  ⟨format_status_rc_first.1 "R75" (by decide),
    format_status_rc_first.2.1 "C20" (by decide)⟩

/-- Twelve marker-free diff lines, an input on which a budget of 1 is
overrun by the truncation step. -/
def cexDiffLines : List String :=
  (List.range 12).map (fun i => "x" ++ toString i)

/-- Counterexample for C1: at twelve plain lines and the positive budget
1, the computed remaining budget is non-positive, the content lines are
kept whole, and the emitted line count is 13 > 1, so the output is not
bounded by `maxLinesPerFile` for every positive budget. -/
theorem trunc_budget_cex :
    ¬ (((get_file_diff_trunc cexDiffLines 1).length : Int) ≤ 1) := by decide

/-- C1 amended: when a diff overruns the budget, the content lines are
sliced to at most `maxLinesPerFile - len(headerLines) - 1` lines only when
that remaining budget is positive, in which case the emitted line count
(marker included) is at most `maxLinesPerFile`; when the remaining budget
is non-positive the content lines are left whole (not emptied), so the
bound can fail for small positive budgets. -/
theorem trunc_budget (diff_lines : List String) (max_lines_per_file : Int)
    (h : (diff_lines.length : Int) > max_lines_per_file) :
    (max_lines_per_file - ((scanLoop diff_lines 0 [] []).1.length : Int) - 1 > 0 →
      ((get_file_diff_trunc diff_lines max_lines_per_file).length : Int) ≤
        max_lines_per_file) ∧
    (max_lines_per_file - ((scanLoop diff_lines 0 [] []).1.length : Int) - 1 ≤ 0 →
      get_file_diff_trunc diff_lines max_lines_per_file =
        (scanLoop diff_lines 0 [] []).1 ++ (scanLoop diff_lines 0 [] []).2 ++
          [truncation_notice max_lines_per_file]) := by
  constructor
  · intro hr
    have he : get_file_diff_trunc diff_lines max_lines_per_file =
        (scanLoop diff_lines 0 [] []).1 ++
          ((scanLoop diff_lines 0 [] []).2.take
            (max_lines_per_file - ((scanLoop diff_lines 0 [] []).1.length : Int) - 1).toNat) ++
          [truncation_notice max_lines_per_file] := by
      simp only [get_file_diff_trunc]
      rw [if_pos h, if_pos hr]
    rw [he]
    simp only [List.length_append, List.length_take, List.length_cons, List.length_nil]
    omega
  · intro hr
    simp only [get_file_diff_trunc]
    rw [if_pos h, if_neg (by omega)]

/-- Thirty marker-free diff lines, used to evaluate the amended truncation
bound at the budget 20. -/
def wideDiffLines : List String :=
  (List.range 30).map (fun i => "x" ++ toString i)

/-- Witness for the amended C1 at thirty plain lines and budget 20. -/
theorem trunc_budget_w :
    ((get_file_diff_trunc wideDiffLines 20).length : Int) ≤ 20 :=
  (trunc_budget wideDiffLines 20 (by decide)).1 (by decide)

/-- Counterexample for C3: at a concrete text file the separator emitted
right after the header line does not have length
`min(len(header), 80)` for the emitted header line
`<path> (<status>) <stats>` (it is one longer: the implementation
measures the header string with its leading newline included). -/
theorem header_sep_cex :
    ¬ (((perFileBlock unitEnv true 100 3 "r" "A" "a.txt").getD 1 "").length =
        min ("r/a.txt" ++ " (" ++ format_status "A" ++ ") " ++ "").length 80) := by
  decide

/-- C3 amended: for every text file block, the block starts with the
header line `<path> (<status>) <stats>` (stored with a leading newline)
followed by a separator rule whose length equals
`min(len(header) + 1, 80)`, the `+ 1` accounting for the leading newline
character included in the measured string. -/
theorem header_sep (env : GitEnv) (include_stats : Bool) (max_lines context_lines : Int)
    (repo_root status filepath : String)
    (he : env.pathExists (repo_root ++ "/" ++ filepath) = true)
    (hd : env.isDir (repo_root ++ "/" ++ filepath) = false)
    (hb : env.isBinaryFile (repo_root ++ "/" ++ filepath) = false) :
    ∃ sep rest,
      perFileBlock env include_stats max_lines context_lines repo_root status filepath =
        ("\n" ++ (repo_root ++ "/" ++ filepath ++ " (" ++ format_status status ++ ") " ++
          (if include_stats then env.fileStats (repo_root ++ "/" ++ filepath) else ""))) ::
          sep :: rest ∧
      sep.length =
        min ((repo_root ++ "/" ++ filepath ++ " (" ++ format_status status ++ ") " ++
          (if include_stats then env.fileStats (repo_root ++ "/" ++ filepath) else "")).length
          + 1) 80 := by
  have hblock : perFileBlock env include_stats max_lines context_lines repo_root status
      filepath =
      textFileBlock env include_stats max_lines context_lines
        (repo_root ++ "/" ++ filepath) status := by
    simp [perFileBlock, he, hd, hb]
  have hhdr : "\n" ++ (repo_root ++ "/" ++ filepath) ++ " (" ++ format_status status ++ ") " ++
      (if include_stats then env.fileStats (repo_root ++ "/" ++ filepath) else "") =
      "\n" ++ (repo_root ++ "/" ++ filepath ++ " (" ++ format_status status ++ ") " ++
        (if include_stats then env.fileStats (repo_root ++ "/" ++ filepath) else "")) := by
    simp [String.append_assoc]
  rw [hblock]
  simp only [textFileBlock, List.cons_append, List.nil_append]
  rw [hhdr]
  refine ⟨_, _, rfl, ?_⟩
  have hnl : ("\n" : String).length = 1 := rfl
  simp only [String.length_mk, List.length_replicate, String.length_append, hnl]
  omega

/-- Witness for the amended C3 at a concrete text file. -/
theorem header_sep_w :
    ∃ sep rest,
      perFileBlock unitEnv true 100 3 "r" "A" "a.txt" =
        ("\n" ++ ("r" ++ "/" ++ "a.txt" ++ " (" ++ format_status "A" ++ ") " ++
          (if true then unitEnv.fileStats ("r" ++ "/" ++ "a.txt") else ""))) ::
          sep :: rest ∧
      sep.length =
        min (("r" ++ "/" ++ "a.txt" ++ " (" ++ format_status "A" ++ ") " ++
          (if true then unitEnv.fileStats ("r" ++ "/" ++ "a.txt") else "")).length + 1) 80 :=
  header_sep unitEnv true 100 3 "r" "A" "a.txt" rfl rfl rfl

/-- C8: a staged change with status `D` whose path does not exist on disk
is processed exactly like a text file (its stats and diff are still
fetched) and is never reported through the single-line
`File not found` block. -/
theorem deleted_missing (env : GitEnv) (include_stats : Bool) (max_lines context_lines : Int)
    (repo_root filepath : String)
    (h : env.pathExists (repo_root ++ "/" ++ filepath) = false) :
    perFileBlock env include_stats max_lines context_lines repo_root "D" filepath =
      textFileBlock env include_stats max_lines context_lines
        (repo_root ++ "/" ++ filepath) "D" ∧
    perFileBlock env include_stats max_lines context_lines repo_root "D" filepath ≠
      ["\nFile not found: " ++ filepath ++ " (" ++ format_status "D" ++ ")"] := by
  have hD : py_char_in 'D' "D" = true := by decide
  have hmain : perFileBlock env include_stats max_lines context_lines repo_root "D"
      filepath =
      textFileBlock env include_stats max_lines context_lines
        (repo_root ++ "/" ++ filepath) "D" := by
    simp [perFileBlock, h, hD]
  refine ⟨hmain, ?_⟩
  rw [hmain]
  intro hc
  have hlen := congrArg List.length hc
  simp only [textFileBlock] at hlen
  simp only [List.length_append, List.length_cons, List.length_nil] at hlen
  omega

/-- Witness for C8 at a concrete environment where no path exists. -/
theorem deleted_missing_w :
    perFileBlock missingEnv true 100 3 "repo" "D" "gone.txt" =
      textFileBlock missingEnv true 100 3 ("repo" ++ "/" ++ "gone.txt") "D" ∧
    perFileBlock missingEnv true 100 3 "repo" "D" "gone.txt" ≠
      ["\nFile not found: " ++ "gone.txt" ++ " (" ++ format_status "D" ++ ")"] :=
  deleted_missing missingEnv true 100 3 "repo" "gone.txt" rfl

/-- C9: the Deleted exception is a substring test: any status string
containing the character `D` anywhere (such as `AD`) skips the
`File not found` branch for a missing path and is processed as a text
file, with the diff and stats still fetched. -/
theorem deleted_substring (env : GitEnv) (include_stats : Bool)
    (max_lines context_lines : Int) (repo_root status filepath : String)
    (h : env.pathExists (repo_root ++ "/" ++ filepath) = false)
    (hD : py_char_in 'D' status = true) :
    perFileBlock env include_stats max_lines context_lines repo_root status filepath =
      textFileBlock env include_stats max_lines context_lines
        (repo_root ++ "/" ++ filepath) status := by
  simp [perFileBlock, h, hD]

/-- Witness for C9 with the two-letter status `AD` on a missing path. -/
theorem deleted_substring_w :
    perFileBlock missingEnv true 100 3 "repo" "AD" "gone.txt" =
      textFileBlock missingEnv true 100 3 ("repo" ++ "/" ++ "gone.txt") "AD" :=
  deleted_substring missingEnv true 100 3 "repo" "AD" "gone.txt" rfl (by decide)

/-- The per-file loop emits exactly the blocks of the first-occurrence
deduplicated change list: a skipped duplicate contributes nothing, not
even a diff or stats fetch. -/
theorem processLoop_eq_dedup (env : GitEnv) (include_stats : Bool)
    (max_lines context_lines : Int) (repo_root : String) :
    ∀ (l : List (String × String)) (seen : List String),
      processLoop env include_stats max_lines context_lines repo_root l seen =
        (dedupKeepFirst l seen).flatMap
          (fun c => perFileBlock env include_stats max_lines context_lines repo_root
            c.1 c.2) := by
  intro l
  induction l with
  | nil => intro seen; rfl
  | cons c rest ih =>
    intro seen
    obtain ⟨status, filepath⟩ := c
    by_cases hmem : filepath ∈ seen
    · simp [processLoop, dedupKeepFirst, hmem, ih]
    · simp [processLoop, dedupKeepFirst, hmem, ih]

/-- Once a path is recorded as seen, the deduplicated list holds no entry
for it. -/
theorem dedup_count_zero (p : String) :
    ∀ (l : List (String × String)) (seen : List String), p ∈ seen →
      ((dedupKeepFirst l seen).filter (fun c => c.2 == p)).length = 0 := by
  intro l
  induction l with
  | nil => intro seen _; rfl
  | cons c rest ih =>
    intro seen h
    by_cases hmem : c.2 ∈ seen
    · simp only [dedupKeepFirst, if_pos hmem]
      exact ih seen h
    · have hne : (c.2 == p) = false := by
        rw [beq_eq_false_iff_ne]
        intro heq
        exact hmem (heq ▸ h)
      simp only [dedupKeepFirst, if_neg hmem, List.filter_cons, hne, Bool.false_eq_true,
        if_false]
      exact ih (c.2 :: seen) (List.mem_cons_of_mem _ h)

/-- A path occurring in the change list and not yet seen appears exactly
once in the deduplicated list. -/
theorem dedup_count_one (p : String) :
    ∀ (l : List (String × String)) (seen : List String), p ∉ seen →
      (∃ c ∈ l, c.2 = p) →
      ((dedupKeepFirst l seen).filter (fun c => c.2 == p)).length = 1 := by
  intro l
  induction l with
  | nil =>
    intro seen _ hex
    simp at hex
  | cons c rest ih =>
    intro seen hs hex
    by_cases hmem : c.2 ∈ seen
    · have hne : c.2 ≠ p := fun heq => hs (heq ▸ hmem)
      have hex2 : ∃ c2 ∈ rest, c2.2 = p := by
        obtain ⟨c2, hc2, he2⟩ := hex
        rcases List.mem_cons.mp hc2 with hh | ht
        · exact absurd (hh ▸ he2) hne
        · exact ⟨c2, ht, he2⟩
      simp only [dedupKeepFirst, if_pos hmem]
      exact ih seen hs hex2
    · by_cases heq : c.2 = p
      · have hbeq : (c.2 == p) = true := beq_iff_eq.mpr heq
        simp only [dedupKeepFirst, if_neg hmem, List.filter_cons, hbeq, if_true,
          List.length_cons]
        have hz := dedup_count_zero p rest (c.2 :: seen)
          (by rw [heq]; exact List.mem_cons_self _ _)
        omega
      · have hbeq : (c.2 == p) = false := beq_eq_false_iff_ne.mpr heq
        have hex2 : ∃ c2 ∈ rest, c2.2 = p := by
          obtain ⟨c2, hc2, he2⟩ := hex
          rcases List.mem_cons.mp hc2 with hh | ht
          · exact absurd (hh ▸ he2) heq
          · exact ⟨c2, ht, he2⟩
        have hs2 : p ∉ c.2 :: seen := by
          intro hin
          rcases List.mem_cons.mp hin with hh | ht
          · exact heq hh.symm
          · exact hs ht
        simp only [dedupKeepFirst, if_neg hmem, List.filter_cons, hbeq, Bool.false_eq_true,
          if_false]
        exact ih (c.2 :: seen) hs2 hex2

/-- The first entry found for a not-yet-seen path is the same in the
deduplicated list as in the original list. -/
theorem dedup_find_first (p : String) :
    ∀ (l : List (String × String)) (seen : List String), p ∉ seen →
      (dedupKeepFirst l seen).find? (fun c => c.2 == p) =
        l.find? (fun c => c.2 == p) := by
  intro l
  induction l with
  | nil => intro seen _; rfl
  | cons c rest ih =>
    intro seen hs
    by_cases hmem : c.2 ∈ seen
    · have hne : (c.2 == p) = false := by
        rw [beq_eq_false_iff_ne]
        intro heq
        exact hs (heq ▸ hmem)
      simp only [dedupKeepFirst, if_pos hmem, List.find?_cons, hne]
      exact ih seen hs
    · by_cases heq : (c.2 == p) = true
      · simp only [dedupKeepFirst, if_neg hmem, List.find?_cons, heq]
      · have hs2 : p ∉ c.2 :: seen := by
          intro hin
          rcases List.mem_cons.mp hin with hh | ht
          · exact heq (beq_iff_eq.mpr hh.symm)
          · exact hs ht
        have hbeq : (c.2 == p) = false := by
          cases hb : (c.2 == p) with
          | false => rfl
          | true => exact absurd hb heq
        simp only [dedupKeepFirst, if_neg hmem, List.find?_cons, hbeq, Bool.false_eq_true,
          if_false]
        exact ih (c.2 :: seen) hs2

/-- C7: when a path occurs in the (filtered) change list, the per-file
loop emits exactly the blocks of the first-occurrence deduplicated list,
that list holds exactly one entry for the path, and that entry is the
first occurrence in the original list; duplicates contribute no block and
no diff or stats fetch. -/
theorem dedup_one_block (env : GitEnv) (include_stats : Bool)
    (max_lines context_lines : Int) (repo_root : String)
    (l : List (String × String)) (p : String) (h : ∃ c ∈ l, c.2 = p) :
    processLoop env include_stats max_lines context_lines repo_root l [] =
      (dedupKeepFirst l []).flatMap
        (fun c => perFileBlock env include_stats max_lines context_lines repo_root
          c.1 c.2) ∧
    ((dedupKeepFirst l []).filter (fun c => c.2 == p)).length = 1 ∧
    (dedupKeepFirst l []).find? (fun c => c.2 == p) =
      l.find? (fun c => c.2 == p) :=
  ⟨processLoop_eq_dedup env include_stats max_lines context_lines repo_root l [],
    dedup_count_one p l [] (by simp) h,
    dedup_find_first p l [] (by simp)⟩

/-- Witness for C7 at a change list in which `a.txt` appears twice. -/
theorem dedup_one_block_w :
    processLoop unitEnv true 100 3 "repo" [("M", "a.txt"), ("A", "a.txt")] [] =
      (dedupKeepFirst [("M", "a.txt"), ("A", "a.txt")] []).flatMap
        (fun c => perFileBlock unitEnv true 100 3 "repo" c.1 c.2) ∧
    ((dedupKeepFirst [("M", "a.txt"), ("A", "a.txt")] []).filter
      (fun c => c.2 == "a.txt")).length = 1 ∧
    (dedupKeepFirst [("M", "a.txt"), ("A", "a.txt")] []).find?
        (fun c => c.2 == "a.txt") =
      [("M", "a.txt"), ("A", "a.txt")].find? (fun c => c.2 == "a.txt") :=
  dedup_one_block unitEnv true 100 3 "repo" [("M", "a.txt"), ("A", "a.txt")] "a.txt"
    ⟨("M", "a.txt"), by simp, rfl⟩

end AICommit
